import Mathlib

/-!
Shallow embedding of the rcache request-handling core:
  * `src/codec.rs`   — the wire codec (`CacheCodec.encode` / `CacheCodec.decode`),
  * `src/cache.rs`   — the cache engine (`Cache.process`),
  * `src/service.rs` — the service decorators (`StatService.call`, `LogService.call`).

Bytes are modelled as `Nat` (each produced byte is `< 256` by construction,
mirroring `u8`); machine-integer truncation (`as u32`, `as u64`) is modelled by
explicit `%`-arithmetic inside the big-endian serializers.  Buffers (`BytesMut`)
are `List Nat`; a decode call returns the result together with the buffer that
remains after the call, mirroring the in-place mutation of `BytesMut`.
-/

namespace RCache

/-- Modelled from the spec: `message.rs` is not among the given sources.  §6 fixes
the stable 1-byte operation encoding 0=Get, 1=Set, 2=Del, 3=Stats. -/
inductive Op where
  | Get
  | Set
  | Del
  | Stats
deriving DecidableEq, Repr

/-- The stable 1-byte encoding of `Op` (spec §6), used by `msg.op() as u8`. -/
def Op.toByte : Op → Nat
  | .Get => 0
  | .Set => 1
  | .Del => 2
  | .Stats => 3

/-- `Op::try_from(u8)`: any byte outside the fixed enumeration is a hard decode
failure (spec §4.1). -/
def Op.fromByte : Nat → Option Op
  | 0 => some .Get
  | 1 => some .Set
  | 2 => some .Del
  | 3 => some .Stats
  | _ => none

/-- Modelled from the spec: `message.rs` is not among the given sources.  §3/§6:
status codes are a fixed small set with a stable nonzero 1-byte encoding (byte 0
is reserved to mark a request); `Code::Ok` is the success status seen throughout
`codec.rs`/`service.rs`, and §7 names an internal-error status. -/
inductive Code where
  | Ok
  | Err
deriving DecidableEq, Repr

/-- The stable nonzero 1-byte encoding of a response status (spec §3/§6). -/
def Code.toByte : Code → Nat
  | .Ok => 1
  | .Err => 2

/-- `Code::try_from(u8)`: bytes outside the fixed enumeration fail (spec §4.1). -/
def Code.fromByte : Nat → Option Code
  | 1 => some .Ok
  | 2 => some .Err
  | _ => none

/-- Modelled from the spec: §3 — a Payload is a 32-bit opaque `type_id` tag plus
a byte sequence. -/
structure Payload where
  type_id : Nat
  data : List Nat
deriving DecidableEq, Repr

/-- Modelled from the spec: §3 — a Message is either
`Request {op, key, payload: optional}` or `Response {op, status code, payload:
optional}` (the `Message::Response(Op, Code, Option<Payload>)` shape is also
visible in the `codec.rs` tests). -/
inductive Message where
  | Request : Op → List Nat → Option Payload → Message
  | Response : Op → Code → Option Payload → Message
deriving DecidableEq, Repr

/-- Accessor `msg.op()`. -/
def Message.op : Message → Op
  | .Request o _ _ => o
  | .Response o _ _ => o

/-- Accessor `msg.key()`: only the Request shape carries a key (spec §3). -/
def Message.key : Message → Option (List Nat)
  | .Request _ k _ => some k
  | .Response _ _ _ => none

/-- Accessor `msg.payload()`. -/
def Message.payload : Message → Option Payload
  | .Request _ _ p => p
  | .Response _ _ p => p

/-- Accessor `msg.type_id()`: the payload's tag, when a payload is present. -/
def Message.type_id (m : Message) : Option Nat :=
  m.payload.map Payload.type_id

/-- `msg.code() as u8`: byte 0 marks a request; a response carries its status
byte (spec §3/§6). -/
def Message.codeByte : Message → Nat
  | .Request _ _ _ => 0
  | .Response _ c _ => c.toByte

/-! ## Big-endian serialization primitives (`bytes`: `put_u64`/`put_u32`/`get_*`) -/

/-- `put_u64::<BigEndian>`: the eight big-endian bytes of `n` (mod 2^64). -/
def u64be (n : Nat) : List Nat :=
  [n / 72057594037927936 % 256, n / 281474976710656 % 256, n / 1099511627776 % 256,
   n / 4294967296 % 256, n / 16777216 % 256, n / 65536 % 256, n / 256 % 256, n % 256]

/-- `put_u32::<BigEndian>`: the four big-endian bytes of `n` (mod 2^32). -/
def u32be (n : Nat) : List Nat :=
  [n / 16777216 % 256, n / 65536 % 256, n / 256 % 256, n % 256]

/-- Big-endian read (`get_u64`/`get_u32` over the listed bytes). -/
def readBE (l : List Nat) : Nat :=
  l.foldl (fun acc b => acc * 256 + b) 0

/-! ## The wire codec (`src/codec.rs`) -/

/-- `static HEADER_LEN: usize = 8 + 1 + 1 + 8 + 4;` -/
def HEADER_LEN : Nat := 8 + 1 + 1 + 8 + 4

namespace CacheCodec

/-- `CacheCodec::encode` (codec.rs:31-58): header (request id, code byte, op
byte, payload length as u64, key length as u32), then the key bytes, then —
only when the payload is non-empty — the type_id and the payload bytes. -/
def encode (request_id : Nat) (msg : Message) : List Nat :=
  let key := msg.key.getD []
  let payload := (msg.payload.map Payload.data).getD []
  let type_id := msg.type_id.getD 0
  let payload_len := payload.length
  u64be request_id ++ [msg.codeByte] ++ [msg.op.toByte] ++
    u64be payload_len ++ u32be key.length ++ key ++
    (if payload_len > 0 then u32be type_id ++ payload else [])

/-- The tail of `CacheCodec::decode` (codec.rs:112-116): classify the split-off
frame as a Request (code byte 0) or a Response; any op or code byte outside the
fixed enumerations is a hard failure (`Op::try_from(op)?` / `Code::try_from`). -/
def classify (request_id code op : Nat) (key : List Nat) (payload : Option Payload) :
    Except Unit (Option (Nat × Message)) :=
  if code = 0 then
    match Op.fromByte op with
    | some o => .ok (some (request_id, .Request o key payload))
    | none => .error ()
  else
    match Op.fromByte op, Code.fromByte code with
    | some o, some c => .ok (some (request_id, .Response o c payload))
    | _, _ => .error ()

/-- `CacheCodec::decode` (codec.rs:65-119).  The pair's second component is the
buffer left in `BytesMut` after the call: untouched when the header or the
frame is incomplete, and past the split-off frame otherwise (`split_to` runs
before `Op::try_from`, so even a failed classification consumes the frame).
The cursor reads are sequential: u64 request id, two u8s, `advance(12)` over
the already-read lengths, `key_len` key bytes, and — when a payload is present
— a u32 type_id followed by `collect()` of the remainder of the frame. -/
def decode (buf : List Nat) : Except Unit (Option (Nat × Message)) × List Nat :=
  if buf.length < HEADER_LEN then (.ok none, buf)
  else
    let payload_len := readBE ((buf.drop 10).take 8)
    let key_len := readBE ((buf.drop 18).take 4)
    let type_id_len := if payload_len = 0 then 0 else 4
    let msg_len := HEADER_LEN + payload_len + key_len + type_id_len
    if buf.length < msg_len then (.ok none, buf)
    else
      let msg := buf.take msg_len
      let rest := buf.drop msg_len
      let request_id := readBE (msg.take 8)
      let c1 := msg.drop 8
      let code := c1.headD 0
      let c2 := c1.drop 1
      let op := c2.headD 0
      let c3 := (c2.drop 1).drop 12
      let key := c3.take key_len
      let c4 := c3.drop key_len
      let payload :=
        if payload_len > 0 then
          some (Payload.mk (readBE (c4.take 4)) (c4.drop 4))
        else none
      (classify request_id code op key payload, rest)

/-- The total byte count `decode` requires before it consumes anything:
`HEADER_LEN + payload_len + key_len + type_id_len`, with the two lengths read
from the header bytes (codec.rs:72-78).  Always at least `HEADER_LEN`. -/
def requiredLen (buf : List Nat) : Nat :=
  let payload_len := readBE ((buf.drop 10).take 8)
  let key_len := readBE ((buf.drop 18).take 4)
  HEADER_LEN + payload_len + key_len + (if payload_len = 0 then 0 else 4)

end CacheCodec

/-- The side conditions under which a `Message` survives the wire unchanged:
its key length fits the `u32` length field, and its payload, when present, is
non-empty (the codec omits the `type_id` of an empty payload), fits the `u64`
length field, and carries a `u32`-sized tag. -/
def Message.wireSafe (m : Message) : Bool :=
  decide ((m.key.getD []).length < 4294967296) &&
  (match m.payload with
   | none => true
   | some p =>
     decide (p.data ≠ []) && decide (p.data.length < 18446744073709551616) &&
       decide (p.type_id < 4294967296))

/-- Modelled from the spec: `message.rs` is not among the given sources.  §3's
lifecycle — a Message is "consumed exactly once by the operation that owns it" —
and the Set branch of `cache.rs` (`let (key, payload) = message.consume()`,
inserting into `HashMap<Vec<u8>, (u32, Vec<u8>)>`) fix `consume`'s shape: the
key and the `(type_id, bytes)` entry pair (defaults for missing parts). -/
def Message.consume : Message → List Nat × (Nat × List Nat)
  | .Request _ k (some p) => (k, (p.type_id, p.data))
  | .Request _ k none => (k, (0, []))
  | .Response _ _ (some p) => ([], (p.type_id, p.data))
  | .Response _ _ none => ([], (0, []))

/-- The engine's `HashMap<Vec<u8>, (u32, Vec<u8>)>`, as an association list. -/
abbrev CacheMap := List (List Nat × (Nat × List Nat))

/-- `HashMap::insert`: insert-or-replace the entry for a key. -/
def CacheMap.insert (k : List Nat) (v : Nat × List Nat) : CacheMap → CacheMap
  | [] => [(k, v)]
  | (k', v') :: rest => if k' = k then (k, v) :: rest else (k', v') :: CacheMap.insert k v rest

/-- `HashMap::get`. -/
def CacheMap.find (k : List Nat) : CacheMap → Option (Nat × List Nat)
  | [] => none
  | (k', v') :: rest => if k' = k then some v' else CacheMap.find k rest

/-- `Cache::process` (cache.rs:32-81), one dispatched unit of work.  `poisoned`
is the outcome of `RwLock::write()`/`read()` acquisition: `Err(PoisonError)`
when a prior holder aborted mid-mutation.  A `none` result models a panic of
the worker closure (an `unwrap` of a poison error or of a missing key), in
which case no message is sent on the completion handle; `some (map, reply)`
is the map after the operation together with the message sent on `snd`.
Reply messages are modelled from the spec (§4.2), the builder being absent:
Set resolves with Response(Set, Ok, none); a Get hit with
Response(Get, Ok, Some(stored payload)); a Get miss with the message that
echoes the requested key and no payload. -/
def Cache.process (poisoned : Bool) (data : CacheMap) (message : Message) :
    Option (CacheMap × Message) :=
  match message.op with
  | .Set =>
    match message.consume with
    | (key, payload) =>
      if poisoned then none
      else some (CacheMap.insert key payload data, .Response .Set .Ok none)
  | .Get =>
    match message.key with
    | none => none
    | some key =>
      if poisoned then none
      else
        match CacheMap.find key data with
        | some (type_id, stored) =>
          some (data, .Response .Get .Ok (some ⟨type_id, stored⟩))
        | none => some (data, .Request .Get key none)
  | .Del => some (data, message)
  | .Stats => some (data, message)

/-- Modelled from the spec: `stats.rs` is not among the given sources; the
counters named by `service.rs` (`incr_total_requests`, `add_request_time`) are
a running request count and a running latency total (§4.3). -/
structure Stats where
  total_requests : Nat
  total_time : Nat
deriving DecidableEq, Repr

/-- ASCII decimal digits of `n` (the `{}` rendering of a number in a format
string). -/
def natDecimal (n : Nat) : List Nat :=
  if h : n < 10 then [48 + n] else natDecimal (n / 10) ++ [48 + n % 10]
termination_by n
decreasing_by omega

/-- The bytes of `format!("keys: {} ", n)` (service.rs:112). -/
def keysText (n : Nat) : List Nat :=
  [107, 101, 121, 115, 58, 32] ++ natDecimal n ++ [32]

/-- `StatService::call` (service.rs:105-131).  `inner` is the wrapped service
(a deferred Response modelled as its resolved value), `get_stats` the rendered
text of `self.stats.get_stats()` (modelled from the spec, `stats.rs` being
absent: the running request count and average latency as free-form bytes),
and `elapsed` the measured wall-clock duration of the inner call (real time is
not modelled).  The first component is a ghost trace of the requests passed to
`self.inner.call`; the second the stats counters after the call; the third the
response.  On Op=Stats the inner service is called and its response replaced
by rendered text, prefixed with `keys: <type_id> ` when the inner reply is a
Response carrying a payload; on every other op the response passes through and
the counters are bumped. -/
def StatService.call (inner : Message → Message) (get_stats : List Nat) (stats : Stats)
    (elapsed : Nat) (req : Message) : List Message × Stats × Message :=
  match req.op with
  | .Stats =>
    match inner req with
    | .Response _ _ (some payload) =>
      ([req], stats, .Response .Stats .Ok (some ⟨1, keysText payload.type_id ++ get_stats⟩))
    | _ => ([req], stats, .Response .Stats .Ok (some ⟨1, get_stats⟩))
  | _ =>
    ([req],
      { total_requests := stats.total_requests + 1, total_time := stats.total_time + elapsed },
      inner req)

/-- `LogService::call` (service.rs:170-176): print the request, delegate, print
and return the inner response.  The first component is the trace of printed
messages; the second the response. -/
def LogService.call (inner : Message → Message) (req : Message) : List Message × Message :=
  ([req, inner req], inner req)

/-! ## Theorems -/

theorem u64be_length (n : Nat) : (u64be n).length = 8 := rfl

theorem u32be_length (n : Nat) : (u32be n).length = 4 := rfl

theorem readBE_u64be (n : Nat) (h : n < 18446744073709551616) : readBE (u64be n) = n := by
  simp [readBE, u64be, List.foldl]
  omega

theorem readBE_u32be (n : Nat) (h : n < 4294967296) : readBE (u32be n) = n := by
  simp [readBE, u32be, List.foldl]
  omega

namespace CacheCodec

theorem header_payload_len (r cd opb pl kl : Nat) (tail : List Nat)
    (h : pl < 18446744073709551616) :
    readBE (((u64be r ++ [cd] ++ [opb] ++ u64be pl ++ u32be kl ++ tail).drop 10).take 8) = pl := by
  rw [show u64be r ++ [cd] ++ [opb] ++ u64be pl ++ u32be kl ++ tail
      = (u64be r ++ [cd] ++ [opb]) ++ (u64be pl ++ (u32be kl ++ tail)) from by
        simp [List.append_assoc]]
  rw [List.drop_left' (show (u64be r ++ [cd] ++ [opb]).length = 10 from by simp [u64be])]
  rw [List.take_left' (u64be_length pl), readBE_u64be pl h]

theorem header_key_len (r cd opb pl kl : Nat) (tail : List Nat)
    (h : kl < 4294967296) :
    readBE (((u64be r ++ [cd] ++ [opb] ++ u64be pl ++ u32be kl ++ tail).drop 18).take 4) = kl := by
  rw [show u64be r ++ [cd] ++ [opb] ++ u64be pl ++ u32be kl ++ tail
      = (u64be r ++ [cd] ++ [opb] ++ u64be pl) ++ (u32be kl ++ tail) from by
        simp [List.append_assoc]]
  rw [List.drop_left' (show (u64be r ++ [cd] ++ [opb] ++ u64be pl).length = 18 from by simp [u64be])]
  rw [List.take_left' (u32be_length kl), readBE_u32be kl h]

theorem header_rid (r cd opb pl kl : Nat) (tail : List Nat)
    (h : r < 18446744073709551616) :
    readBE ((u64be r ++ [cd] ++ [opb] ++ u64be pl ++ u32be kl ++ tail).take 8) = r := by
  rw [show u64be r ++ [cd] ++ [opb] ++ u64be pl ++ u32be kl ++ tail
      = u64be r ++ ([cd] ++ ([opb] ++ (u64be pl ++ (u32be kl ++ tail)))) from by
        simp [List.append_assoc]]
  rw [List.take_left' (u64be_length r), readBE_u64be r h]

theorem header_code (r cd opb pl kl : Nat) (tail : List Nat) :
    ((u64be r ++ [cd] ++ [opb] ++ u64be pl ++ u32be kl ++ tail).drop 8).headD 0 = cd := by
  rw [show u64be r ++ [cd] ++ [opb] ++ u64be pl ++ u32be kl ++ tail
      = u64be r ++ ([cd] ++ ([opb] ++ (u64be pl ++ (u32be kl ++ tail)))) from by
        simp [List.append_assoc]]
  rw [List.drop_left' (u64be_length r)]
  rfl

theorem header_op (r cd opb pl kl : Nat) (tail : List Nat) :
    (((u64be r ++ [cd] ++ [opb] ++ u64be pl ++ u32be kl ++ tail).drop 8).drop 1).headD 0 = opb := by
  rw [show u64be r ++ [cd] ++ [opb] ++ u64be pl ++ u32be kl ++ tail
      = u64be r ++ ([cd] ++ ([opb] ++ (u64be pl ++ (u32be kl ++ tail)))) from by
        simp [List.append_assoc]]
  rw [List.drop_left' (u64be_length r)]
  rfl

theorem header_body (r cd opb pl kl : Nat) (tail : List Nat) :
    ((((u64be r ++ [cd] ++ [opb] ++ u64be pl ++ u32be kl ++ tail).drop 8).drop 1).drop 1).drop 12 = tail := by
  rw [show u64be r ++ [cd] ++ [opb] ++ u64be pl ++ u32be kl ++ tail
      = u64be r ++ ([cd] ++ ([opb] ++ (u64be pl ++ (u32be kl ++ tail)))) from by
        simp [List.append_assoc]]
  rw [List.drop_left' (u64be_length r)]
  show (u64be pl ++ (u32be kl ++ tail)).drop 12 = tail
  rw [show u64be pl ++ (u32be kl ++ tail) = (u64be pl ++ u32be kl) ++ tail from
    (List.append_assoc _ _ _).symm]
  rw [List.drop_left' (show (u64be pl ++ u32be kl).length = 12 from by simp [u64be, u32be])]

theorem decode_shaped_some (r cd opb tid : Nat) (key data rest : List Nat)
    (hr : r < 18446744073709551616)
    (hd : data ≠ [])
    (hdl : data.length < 18446744073709551616)
    (hk : key.length < 4294967296)
    (htid : tid < 4294967296) :
    decode (u64be r ++ [cd] ++ [opb] ++ u64be data.length ++
        u32be key.length ++ key ++ (u32be tid ++ data) ++ rest) =
      (classify r cd opb key (some ⟨tid, data⟩), rest) := by
  have hd0 : data.length ≠ 0 := by simpa using hd
  rw [show u64be r ++ [cd] ++ [opb] ++ u64be data.length ++ u32be key.length ++ key ++
        (u32be tid ++ data) ++ rest
      = u64be r ++ [cd] ++ [opb] ++ u64be data.length ++ u32be key.length ++
        (key ++ ((u32be tid ++ data) ++ rest)) from by simp [List.append_assoc]]
  simp only [decode, HEADER_LEN]
  rw [header_payload_len _ _ _ _ _ _ hdl, header_key_len _ _ _ _ _ _ hk]
  rw [if_neg hd0]
  rw [show (8 + 1 + 1 + 8 + 4 + data.length + key.length + 4 : Nat)
      = (u64be r ++ [cd] ++ [opb] ++ u64be data.length ++ u32be key.length).length
        + (key.length + (4 + data.length)) from by simp [u64be, u32be]; try omega]
  rw [List.take_append, List.drop_append, List.take_append, List.drop_append]
  rw [show (4 + data.length : Nat) = (u32be tid ++ data).length from by simp [u32be]; omega]
  rw [List.take_left, List.drop_left]
  split
  next h => exfalso; simp [u64be, u32be] at h; omega
  next h =>
  split
  next h2 => exfalso; simp [u64be, u32be] at h2; omega
  next h2 =>
  rw [header_rid _ _ _ _ _ _ hr, header_code, header_op, header_body]
  rw [List.take_left, List.drop_left]
  rw [if_pos (Nat.pos_of_ne_zero hd0)]
  rw [List.take_left' (u32be_length tid), List.drop_left' (u32be_length tid),
    readBE_u32be tid htid]

theorem decode_shaped_none (r cd opb : Nat) (key rest : List Nat)
    (hr : r < 18446744073709551616)
    (hk : key.length < 4294967296) :
    decode (u64be r ++ [cd] ++ [opb] ++ u64be 0 ++ u32be key.length ++ key ++ rest) =
      (classify r cd opb key none, rest) := by
  rw [show u64be r ++ [cd] ++ [opb] ++ u64be 0 ++ u32be key.length ++ key ++ rest
      = u64be r ++ [cd] ++ [opb] ++ u64be 0 ++ u32be key.length ++ (key ++ rest) from by
        simp [List.append_assoc]]
  simp only [decode, HEADER_LEN]
  rw [header_payload_len _ _ _ _ _ _ (by omega), header_key_len _ _ _ _ _ _ hk]
  rw [if_pos rfl]
  rw [show (8 + 1 + 1 + 8 + 4 + 0 + key.length + 0 : Nat)
      = (u64be r ++ [cd] ++ [opb] ++ u64be 0 ++ u32be key.length).length + key.length from by
        simp [u64be, u32be]; try omega]
  rw [List.take_append, List.drop_append, List.take_left, List.drop_left]
  split
  next h => exfalso; simp [u64be, u32be] at h; omega
  next h =>
  split
  next h2 => exfalso; simp [u64be, u32be] at h2; omega
  next h2 =>
  rw [header_rid _ _ _ _ _ _ hr, header_code, header_op, header_body]
  rw [if_neg (by omega : ¬ (0:Nat) > 0)]
  rw [List.take_length]

theorem classify_request (r : Nat) (op : Op) (key : List Nat) (pl : Option Payload) :
    classify r 0 (Op.toByte op) key pl = .ok (some (r, .Request op key pl)) := by
  cases op <;> rfl

theorem classify_response (r : Nat) (op : Op) (c : Code) (key : List Nat) (pl : Option Payload) :
    classify r (Code.toByte c) (Op.toByte op) key pl = .ok (some (r, .Response op c pl)) := by
  cases op <;> cases c <;> rfl

theorem decode_encode (r : Nat) (m : Message) (rest : List Nat)
    (hr : r < 18446744073709551616) (hm : m.wireSafe = true) :
    decode (encode r m ++ rest) = (.ok (some (r, m)), rest) := by
  cases m with
  | Request op key pl =>
    cases pl with
    | none =>
      simp only [Message.wireSafe, Message.key, Message.payload, Bool.and_eq_true,
        decide_eq_true_eq] at hm
      have hk : key.length < 4294967296 := by simpa using hm.1
      have he : encode r (.Request op key none) ++ rest
          = u64be r ++ [0] ++ [Op.toByte op] ++ u64be 0 ++ u32be key.length ++ key ++ rest := by
        simp [encode, Message.key, Message.payload, Message.type_id, Message.codeByte,
          Message.op, List.append_assoc]
      rw [he, decode_shaped_none _ _ _ _ _ hr hk, classify_request]
    | some p =>
      obtain ⟨tid, data⟩ := p
      simp only [Message.wireSafe, Message.key, Message.payload, Bool.and_eq_true,
        decide_eq_true_eq] at hm
      obtain ⟨hk', ⟨hd, hdl⟩, htid⟩ := hm
      have hk : key.length < 4294967296 := by simpa using hk'
      have he : encode r (.Request op key (some ⟨tid, data⟩)) ++ rest
          = u64be r ++ [0] ++ [Op.toByte op] ++ u64be data.length ++ u32be key.length ++ key ++
            (u32be tid ++ data) ++ rest := by
        simp [encode, Message.key, Message.payload, Message.type_id, Message.codeByte,
          Message.op, List.append_assoc, List.length_pos, hd]
      rw [he, decode_shaped_some _ _ _ _ _ _ _ hr hd hdl hk htid, classify_request]
  | Response op c pl =>
    cases pl with
    | none =>
      have he : encode r (.Response op c none) ++ rest
          = u64be r ++ [Code.toByte c] ++ [Op.toByte op] ++ u64be 0 ++
            u32be (List.length ([] : List Nat)) ++ [] ++ rest := by
        simp [encode, Message.key, Message.payload, Message.type_id, Message.codeByte,
          Message.op, List.append_assoc]
      rw [he, decode_shaped_none _ _ _ _ _ hr (by decide), classify_response]
    | some p =>
      obtain ⟨tid, data⟩ := p
      simp only [Message.wireSafe, Message.key, Message.payload, Bool.and_eq_true,
        decide_eq_true_eq] at hm
      obtain ⟨hk', ⟨hd, hdl⟩, htid⟩ := hm
      have he : encode r (.Response op c (some ⟨tid, data⟩)) ++ rest
          = u64be r ++ [Code.toByte c] ++ [Op.toByte op] ++ u64be data.length ++
            u32be (List.length ([] : List Nat)) ++ [] ++ (u32be tid ++ data) ++ rest := by
        simp [encode, Message.key, Message.payload, Message.type_id, Message.codeByte,
          Message.op, List.append_assoc, List.length_pos, hd]
      rw [he, decode_shaped_some _ _ _ _ _ _ _ hr hd hdl (by decide) htid, classify_response]

theorem decode_incomplete (buf : List Nat) (h : buf.length < requiredLen buf) :
    decode buf = (.ok none, buf) := by
  by_cases h22 : buf.length < HEADER_LEN
  · simp only [decode]
    rw [if_pos h22]
  · simp only [requiredLen] at h
    simp only [decode]
    rw [if_neg h22, if_pos h]

end CacheCodec

theorem CacheMap.find_insert (k : List Nat) (v : Nat × List Nat) (m : CacheMap) :
    CacheMap.find k (CacheMap.insert k v m) = some v := by
  induction m with
  | nil => simp [CacheMap.insert, CacheMap.find]
  | cons hd tl ih =>
    obtain ⟨k', v'⟩ := hd
    by_cases h : k' = k <;> simp [CacheMap.insert, CacheMap.find, h, ih]

/-- C1 (counterexample): the round-trip fails as universally stated — a Message
carrying `Some` payload with empty bytes encodes to a frame that decodes to the
same Message with *no* payload (the empty payload, and its type_id 5, are
lost). -/
theorem c1_counterexample :
    CacheCodec.decode (CacheCodec.encode 0 (.Request .Get [] (some ⟨5, []⟩)))
      ≠ (.ok (some (0, (.Request .Get [] (some ⟨5, []⟩)))), []) := by
  have h0 : CacheCodec.decode (CacheCodec.encode 0 (.Request .Get [] (some ⟨5, []⟩)))
      = (.ok (some (0, (.Request .Get [] none : Message))), []) := rfl
  rw [h0]
  simp

/-- C1 (amended): decode is the exact inverse of encode for every Message whose
payload, when present, has non-empty bytes — under the representation bounds
the wire format imposes (request id in u64, key length in u32, payload length
in u64, type_id in u32). -/
theorem c1_roundtrip (r : Nat) (m : Message) (hr : r < 18446744073709551616)
    (hm : m.wireSafe = true) :
    CacheCodec.decode (CacheCodec.encode r m) = (.ok (some (r, m)), []) := by
  have h := CacheCodec.decode_encode r m [] hr hm
  simpa using h

/-- C1 witness: a concrete round-trip through the amended theorem. -/
theorem c1_roundtrip_witness :
    (5 : Nat) < 18446744073709551616 ∧
    (Message.Request .Get [102] (some ⟨3, [1, 2]⟩)).wireSafe = true ∧
    CacheCodec.decode (CacheCodec.encode 5 (.Request .Get [102] (some ⟨3, [1, 2]⟩)))
      = (.ok (some (5, .Request .Get [102] (some ⟨3, [1, 2]⟩))), []) :=
  ⟨by decide, by decide, c1_roundtrip 5 _ (by decide) (by decide)⟩

/-- C4 (counterexample): with a one-byte payload the frame is 5 bytes longer
than the payload-less frame, not 4 as claimed. -/
theorem c4_counterexample :
    (CacheCodec.encode 0 (.Request .Get [97] none)).length + 4
      ≠ (CacheCodec.encode 0 (.Request .Get [97] (some ⟨1, [7]⟩))).length := by
  decide

/-- C4 (amended): encoding with an empty (absent) payload produces a frame
exactly `4 + payload_len` bytes shorter than the same Message with a non-empty
payload; the omitted type_id accounts for exactly 4 of those bytes, the payload
bytes for the rest. -/
theorem c4_frame_shrink (r : Nat) (op : Op) (key data : List Nat) (tid : Nat)
    (h : data ≠ []) :
    (CacheCodec.encode r (.Request op key (some ⟨tid, data⟩))).length
      = (CacheCodec.encode r (.Request op key none)).length + (4 + data.length)
    ∧ ∀ c : Code,
      (CacheCodec.encode r (.Response op c (some ⟨tid, data⟩))).length
        = (CacheCodec.encode r (.Response op c none)).length + (4 + data.length) := by
  constructor
  · simp [CacheCodec.encode, Message.key, Message.payload, Message.type_id,
      Message.codeByte, Message.op, u64be, u32be, List.length_pos, h]
    omega
  · intro c
    simp [CacheCodec.encode, Message.key, Message.payload, Message.type_id,
      Message.codeByte, Message.op, u64be, u32be, List.length_pos, h]
    omega

/-- C4 witness: the amended difference at a concrete input. -/
theorem c4_frame_shrink_witness :
    (CacheCodec.encode 0 (.Request .Get [97] (some ⟨1, [7]⟩))).length
      = (CacheCodec.encode 0 (.Request .Get [97] none)).length + (4 + 1) :=
  (c4_frame_shrink 0 .Get [97] [7] 1 (by decide)).1

/-- C5: a buffer holding fewer bytes than one complete frame (22-byte header
plus key_len plus payload_len plus 4 more when payload_len > 0) decodes to
"incomplete" with the buffer untouched; once a full (well-formed) frame is
buffered, decode removes exactly the frame's bytes, yields exactly that frame's
content, and leaves any further buffered bytes unread. -/
theorem c5_partial_and_complete :
    (∀ buf : List Nat, buf.length < CacheCodec.requiredLen buf →
      CacheCodec.decode buf = (.ok none, buf)) ∧
    (∀ (r : Nat) (m : Message) (rest : List Nat), r < 18446744073709551616 →
      m.wireSafe = true →
      CacheCodec.decode (CacheCodec.encode r m ++ rest) = (.ok (some (r, m)), rest)) :=
  ⟨CacheCodec.decode_incomplete,
    fun r m rest hr hm => CacheCodec.decode_encode r m rest hr hm⟩

/-- C5 witness: a one-byte buffer is left untouched; a full frame plus one
trailing byte decodes once and leaves the trailing byte. -/
theorem c5_witness :
    ([0] : List Nat).length < CacheCodec.requiredLen [0] ∧
    CacheCodec.decode [0] = (.ok none, [0]) ∧
    CacheCodec.decode (CacheCodec.encode 7 (.Request .Set [9] none) ++ [255])
      = (.ok (some (7, .Request .Set [9] none)), [255]) :=
  ⟨by decide, c5_partial_and_complete.1 [0] (by decide),
    c5_partial_and_complete.2 7 _ [255] (by decide) (by decide)⟩

/-- C10: a `Some` payload with empty bytes encodes to exactly the frame of the
payload-less Message — for every id, op, status and key — so the wire format
cannot distinguish the two and the empty payload's type_id is lost. -/
theorem c10_empty_eq_absent (r tid : Nat) (op : Op) (key : List Nat) :
    CacheCodec.encode r (.Request op key (some ⟨tid, []⟩))
      = CacheCodec.encode r (.Request op key none)
    ∧ ∀ c : Code,
      CacheCodec.encode r (.Response op c (some ⟨tid, []⟩))
        = CacheCodec.encode r (.Response op c none) := by
  constructor
  · simp [CacheCodec.encode, Message.key, Message.payload, Message.type_id,
      Message.codeByte, Message.op]
  · intro c
    simp [CacheCodec.encode, Message.key, Message.payload, Message.type_id,
      Message.codeByte, Message.op]

/-- C6: Set(K, P) then Get(K) on the same engine (no intervening Set to K)
yields a Response carrying P's bytes and type_id unchanged. -/
theorem c6_set_then_get (m : CacheMap) (K data : List Nat) (tid : Nat) :
    Cache.process false m (.Request .Set K (some ⟨tid, data⟩))
      = some (CacheMap.insert K (tid, data) m, .Response .Set .Ok none)
    ∧ Cache.process false (CacheMap.insert K (tid, data) m) (.Request .Get K none)
      = some (CacheMap.insert K (tid, data) m, .Response .Get .Ok (some ⟨tid, data⟩)) := by
  constructor
  · simp [Cache.process, Message.op, Message.consume]
  · simp [Cache.process, Message.op, Message.key, CacheMap.find_insert]

/-- C7: Get(K) on an engine whose map has no entry for K resolves the handle
with a well-formed reply carrying no payload whose key equals K — never an
error (and never a panic). -/
theorem c7_get_miss (m : CacheMap) (K : List Nat) (h : CacheMap.find K m = none) :
    ∃ reply, Cache.process false m (.Request .Get K none) = some (m, reply)
      ∧ reply.key = some K ∧ reply.payload = none := by
  refine ⟨.Request .Get K none, ?_, rfl, rfl⟩
  simp [Cache.process, Message.op, Message.key, h]

/-- C7 witness: a miss on the empty map. -/
theorem c7_get_miss_witness :
    CacheMap.find [1] [] = none ∧
    ∃ reply, Cache.process false [] (.Request .Get [1] none) = some ([], reply)
      ∧ reply.key = some [1] ∧ reply.payload = none :=
  ⟨rfl, c7_get_miss [] [1] rfl⟩

/-- C8: a Del message passes through — the handle resolves with the original
message unchanged and the map is exactly the map from before. -/
theorem c8_del_passthrough (poisoned : Bool) (m : CacheMap) (msg : Message)
    (h : msg.op = .Del) :
    Cache.process poisoned m msg = some (m, msg) := by
  simp [Cache.process, h]

/-- C8 witness: a concrete Del request. -/
theorem c8_del_passthrough_witness :
    (Message.Request .Del [1] none).op = .Del ∧
    Cache.process false [] (.Request .Del [1] none) = some ([], .Request .Del [1] none) :=
  ⟨rfl, c8_del_passthrough false [] _ rfl⟩

/-- C3 (counterexample): with the lock poisoned, a Set does NOT resolve its
handle with an internal error response — the worker unwraps the poison error
and panics, resolving nothing. -/
theorem c3_counterexample :
    Cache.process true [] (.Request .Set [1] (some ⟨0, [2]⟩)) = none := rfl

/-- C3 (amended): if lock acquisition fails because a prior holder aborted
mid-mutation, every Set or Get worker panics on the unwrapped poison error and
resolves no response at all (only Del and Stats, which never touch the lock,
are unaffected). -/
theorem c3_poisoned_panics (m : CacheMap) (msg : Message)
    (h : msg.op = .Set ∨ msg.op = .Get) :
    Cache.process true m msg = none := by
  rcases h with h | h
  · rcases hc : msg.consume with ⟨k, v⟩
    simp [Cache.process, h, hc]
  · rcases hk : msg.key with _ | k <;> simp [Cache.process, h, hk]

/-- C3 witness: a poisoned Get panics. -/
theorem c3_poisoned_panics_witness :
    ((Message.Request .Get [1] none).op = .Set ∨ (Message.Request .Get [1] none).op = .Get) ∧
    Cache.process true [] (.Request .Get [1] none) = none :=
  ⟨Or.inr rfl, c3_poisoned_panics [] _ (Or.inr rfl)⟩

/-- C2 (counterexample): on a Stats request the decorator's ghost trace of
requests passed to the inner service is non-empty — the inner service IS
invoked. -/
theorem c2_counterexample :
    (StatService.call (fun m => m) [] ⟨0, 0⟩ 0 (.Request .Stats [] none)).1 ≠ [] := by
  simp [StatService.call, Message.op]

/-- C2 (amended): on Op=Stats the decorator invokes the inner service exactly
once with the original request, leaves the counters untouched, and replaces the
inner response with rendered stats text — prefixed with a key count read from
the inner response's payload type_id when the inner reply is a Response
carrying a payload. -/
theorem c2_stats_branch (inner : Message → Message) (get_stats : List Nat) (st : Stats)
    (elapsed : Nat) (req : Message) (h : req.op = .Stats) :
    (StatService.call inner get_stats st elapsed req).1 = [req] ∧
    (StatService.call inner get_stats st elapsed req).2.1 = st ∧
    (StatService.call inner get_stats st elapsed req).2.2 =
      (match inner req with
       | .Response _ _ (some payload) =>
         .Response .Stats .Ok (some ⟨1, keysText payload.type_id ++ get_stats⟩)
       | _ => .Response .Stats .Ok (some ⟨1, get_stats⟩)) := by
  rcases hresp : inner req with ⟨o2, k2, p2⟩ | ⟨o2, c2, p2⟩
  · simp [StatService.call, h, hresp]
  · rcases p2 with _ | p2 <;> simp [StatService.call, h, hresp]

/-- C2 witness: the amended statement at a concrete Stats request. -/
theorem c2_stats_branch_witness :
    (Message.Request .Stats [] none).op = .Stats ∧
    (StatService.call (fun m => m) [] ⟨0, 0⟩ 0 (.Request .Stats [] none)).1
      = [.Request .Stats [] none] :=
  ⟨rfl, (c2_stats_branch (fun m => m) [] ⟨0, 0⟩ 0 (.Request .Stats [] none) rfl).1⟩

/-- C9: the Log decorator is strictly observational — its response is exactly
the inner service's response on the same request, and its trace prints the
request and that response unaltered. -/
theorem c9_log_transparent (inner : Message → Message) (req : Message) :
    (LogService.call inner req).2 = inner req
    ∧ (LogService.call inner req).1 = [req, inner req] :=
  ⟨rfl, rfl⟩

end RCache
